import Mathlib

/-!
Verification of the FreeNAS GUI storage form validation and the cron-job
middleware plugin.

The definitions below are a shallow embedding of

  * `gui/storage/forms.py` — `VolumeVdevForm.clean_disks`,
    `VolumeVdevForm.clean`, `VdevFormSet._clean_vdevtype`,
    `VdevFormSet.clean`, `VolumeMixin.clean_volume_name`,
    `_clean_zfssize_fields`, `VolumeManagerForm.save`;
  * `src/middlewared/middlewared/plugins/cron.py` —
    `CronJobService.validate_data`, `CronJobService.do_create`.

Django form rows are modelled by their cleaned data, validation errors by
an inductive error type whose constructors carry the parameters that the
corresponding Python message interpolates, and `raise`/fall-through by
`Except`.
-/

namespace Freenas

/-- A submitted vdev row of the volume-manager formset, after field
cleaning: the `vdevtype` string and the parsed `disks` list. -/
structure VdevRow where
  vdevtype : String
  disks : List String
deriving Repr, DecidableEq

/-- The validation errors the vdev formset code can raise.  Each
constructor stands for one message of `gui/storage/forms.py`, carrying the
values interpolated into it:
`atLeast n` — "You need at least %d disks";
`onlyOneRow name` — "Only one row for the vitual device of type %s is allowed.";
`differentDataTypes t1 t2` — "You are not allowed to create a volume with different data vdev types (%(vdev1)s and %(vdev2)s)";
`needDataGroup` — "You need a data disk group";
`typeMismatch addtype vdevtype` — "You are trying to add a virtual device of type '%(addtype)s' in a pool that has a virtual device of type '%(vdevtype)s'";
`countMismatch addnum vdevnum` — "You are trying to add a virtual device consisting of %(addnum)s device(s) in a pool that has a virtual device consisting of %(vdevnum)s device(s)". -/
inductive FormError where
  | atLeast (n : Nat)
  | onlyOneRow (name : String)
  | differentDataTypes (t1 t2 : String)
  | needDataGroup
  | typeMismatch (addtype vdevtype : String)
  | countMismatch (addnum vdevnum : Nat)
deriving Repr, DecidableEq

/-- `VolumeVdevForm.clean_disks`: the if/elif chain over the vdev type and
the length of the parsed disk list. -/
def cleanDisks (vdevtype : String) (disks : List String) : Except FormError (List String) :=
  if vdevtype = "mirror" ∧ disks.length < 2 then Except.error (FormError.atLeast 2)
  else if vdevtype = "raidz" ∧ disks.length < 3 then Except.error (FormError.atLeast 3)
  else if vdevtype = "raidz2" ∧ disks.length < 4 then Except.error (FormError.atLeast 4)
  else if vdevtype = "raidz3" ∧ disks.length < 5 then Except.error (FormError.atLeast 5)
  else Except.ok disks

/-- The minimum disk count per vdev type as the specification states it:
2 for mirror, 3 for raidz, 4 for raidz2, 5 for raidz3, no minimum
otherwise.  (Spec-side table, to be compared with `cleanDisks`.) -/
def minDisksSpec (vdevtype : String) : Option Nat :=
  if vdevtype = "mirror" then some 2
  else if vdevtype = "raidz" then some 3
  else if vdevtype = "raidz2" then some 4
  else if vdevtype = "raidz3" then some 5
  else none

/-- `VolumeVdevForm.clean`: rewrite vdevtype "log" to "log mirror" when
more than one disk is selected; otherwise leave the row unchanged. -/
def formClean (row : VdevRow) : VdevRow :=
  if row.vdevtype = "log" ∧ row.disks.length > 1 then
    VdevRow.mk "log mirror" row.disks
  else row

/-- The membership test and name normalisation of
`VdevFormSet._clean_vdevtype`: `some name` when the type is one of the
auxiliary types `cache`, `log`, `log mirror`, `spare` (with `log mirror`
counted under the name `log`), `none` otherwise. -/
def auxName? (t : String) : Option String :=
  if t = "cache" ∨ t = "log" ∨ t = "log mirror" ∨ t = "spare" then
    some (if t = "log mirror" then "log" else t)
  else none

/-- `VdevFormSet._clean_vdevtype`: raise when the (normalised) auxiliary
type was already seen, otherwise record it.  The `vdevfound` defaultdict
is modelled by the list of names already marked `True`. -/
def cleanVdevtype (found : List String) (t : String) : Except FormError (List String) :=
  match auxName? t with
  | none => Except.ok found
  | some name =>
    if name ∈ found then Except.error (FormError.onlyOneRow name)
    else Except.ok (name :: found)

/-- The data-vdev type test of `VdevFormSet.clean`:
`vdevtype in ('mirror', 'stripe', 'raidz', 'raidz2', 'raidz3')`. -/
def isDataType (t : String) : Bool :=
  t = "mirror" || t = "stripe" || t = "raidz" || t = "raidz2" || t = "raidz3"

/-- The create-volume branch of `VdevFormSet.clean` (no `volume_add`):
one pass over the forms tracking `vdevfound`, `datatype` and
`has_datavdev`, raising on a second distinct data type or a duplicated
auxiliary row, and raising "You need a data disk group" when the pass
ends without a data vdev. -/
def cleanNewLoop : List VdevRow → List String → Option String → Bool → Except FormError Unit
  | [], _, _, has => if has then Except.ok () else Except.error FormError.needDataGroup
  | r :: rest, found, dt, has =>
    if isDataType r.vdevtype then
      match dt with
      | some d =>
        if d ≠ r.vdevtype then Except.error (FormError.differentDataTypes d r.vdevtype)
        else cleanNewLoop rest found (some r.vdevtype) true
      | none => cleanNewLoop rest found (some r.vdevtype) true
    else
      match cleanVdevtype found r.vdevtype with
      | Except.error e => Except.error e
      | Except.ok found2 => cleanNewLoop rest found2 dt has

/-- `VdevFormSet.clean` when creating a new volume. -/
def cleanNew (rows : List VdevRow) : Except FormError Unit :=
  cleanNewLoop rows [] none false

/-- A data vdev of the existing pool, as `notifier().zpool_parse(...).data`
yields it: its type and its member devices. -/
structure PoolVdev where
  type : String
  devs : List String
deriving Repr, DecidableEq

/-- First pass of the append branch of `VdevFormSet.clean`: skip empty
types, run `_clean_vdevtype` on the auxiliary rows. -/
def cleanAddAux : List VdevRow → List String → Except FormError Unit
  | [], _ => Except.ok ()
  | r :: rest, found =>
    if r.vdevtype = "" then cleanAddAux rest found
    else if (auxName? r.vdevtype).isSome then
      match cleanVdevtype found r.vdevtype with
      | Except.error e => Except.error e
      | Except.ok found2 => cleanAddAux rest found2
    else cleanAddAux rest found

/-- The per-pair error of the append branch: the `errors` list is built by
appending the type-mismatch message and then the device-count message, and
`errors[0]` is raised, so the type mismatch wins when both occur. -/
def vdevMismatch (v : PoolVdev) (r : VdevRow) : Option FormError :=
  if v.type ≠ r.vdevtype then some (FormError.typeMismatch r.vdevtype v.type)
  else if r.disks.length ≠ v.devs.length then
    some (FormError.countMismatch r.disks.length v.devs.length)
  else none

/-- Inner loop of the append branch, for one existing data vdev: skip
empty and auxiliary rows, raise the first mismatch. -/
def matchRows (v : PoolVdev) : List VdevRow → Except FormError Unit
  | [] => Except.ok ()
  | r :: rest =>
    if r.vdevtype = "" then matchRows v rest
    else if (auxName? r.vdevtype).isSome then matchRows v rest
    else
      match vdevMismatch v r with
      | some e => Except.error e
      | none => matchRows v rest

/-- Outer loop of the append branch over `zpool.data`. -/
def matchAll : List PoolVdev → List VdevRow → Except FormError Unit
  | [], _ => Except.ok ()
  | v :: vs, rows =>
    match matchRows v rows with
    | Except.error e => Except.error e
    | Except.ok _ => matchAll vs rows

/-- `VdevFormSet.clean` when appending to an existing volume whose parsed
pool has data vdevs `zdata`. -/
def cleanAdd (zdata : List PoolVdev) (rows : List VdevRow) : Except FormError Unit :=
  match cleanAddAux rows [] with
  | Except.error e => Except.error e
  | Except.ok _ => matchAll zdata rows

/-- The normalised auxiliary names occurring in a row list, in order. -/
def auxNames (rows : List VdevRow) : List String :=
  rows.filterMap (fun r => auxName? r.vdevtype)

/-- The data vdev types occurring in a row list, in order. -/
def dataTypes (rows : List VdevRow) : List String :=
  (rows.filter (fun r => isDataType r.vdevtype)).map (fun r => r.vdevtype)

/-- The data-type portion of the create branch in isolation: the state
machine over `datatype`/`has_datavdev` that the loop runs when no
auxiliary error intervenes. -/
def checkData : List String → Option String → Bool → Except FormError Unit
  | [], _, has => if has then Except.ok () else Except.error FormError.needDataGroup
  | t :: ts, some d, _ =>
    if d ≠ t then Except.error (FormError.differentDataTypes d t)
    else checkData ts (some t) true
  | t :: ts, none, _ => checkData ts (some t) true

/-- The mismatch errors one existing data vdev produces against the rows,
in row order. -/
def mismatchErrs (v : PoolVdev) (rows : List VdevRow) : List FormError :=
  rows.filterMap (fun r =>
    if r.vdevtype = "" then none
    else if (auxName? r.vdevtype).isSome then none
    else vdevMismatch v r)

/-- The first mismatch found, scanning the existing data vdevs in order
and for each of them the submitted rows in order, a type mismatch taking
precedence over a device-count mismatch for the same pair.  (Spec-side
description of the error the append branch reports.) -/
def firstMismatch (zdata : List PoolVdev) (rows : List VdevRow) : Option FormError :=
  ((zdata.map (fun v => mismatchErrs v rows)).flatten).head?

/-! ### `VolumeMixin.clean_volume_name` -/

/-- The validation errors `clean_volume_name` can raise, one constructor
per message. -/
inductive NameError where
  | badChars
  | alreadyUsed
  | reservedLog
  | badStart
deriving Repr, DecidableEq

/-- An ASCII letter, i.e. what `[a-z]` matches under `re.I`. -/
def isAsciiLetter (c : Char) : Bool :=
  ('a' ≤ c ∧ c ≤ 'z') ∨ ('A' ≤ c ∧ c ≤ 'Z')

/-- A character of `[-_.a-z0-9]` under `re.I`. -/
def nameChar (c : Char) : Bool :=
  isAsciiLetter c || c.isDigit || c = '-' || c = '_' || c = '.'

/-- `re.search(r'^[a-z][-_.a-z0-9]*$', vname, re.I)`: a letter followed by
letters, digits, `-`, `_` or `.`. -/
def matchesNameRe (s : String) : Bool :=
  match s.data with
  | [] => false
  | c :: cs => isAsciiLetter c && cs.all nameChar

/-- `re.search(r'^c[0-9].*', vname)`: first character `c`, second a digit
(case sensitive, no `re.I`). -/
def startsWithCDigit (s : String) : Bool :=
  match s.data with
  | c :: d :: _ => c = 'c' && d.isDigit
  | _ => false

/-- `VolumeMixin.clean_volume_name`.  The database lookup
`models.Volume.objects.filter(vol_name=vname).exists()` is modelled by
membership in the list `existing` of existing volume names.  Note the
guard `if vname and ...`: the regular-expression check is skipped for an
empty name. -/
def cleanVolumeName (existing : List String) (vname : String) : Except NameError String :=
  if vname ≠ "" ∧ ¬ matchesNameRe vname then Except.error NameError.badChars
  else if vname ∈ existing then Except.error NameError.alreadyUsed
  else if vname = "log" then Except.error NameError.reservedLog
  else if startsWithCDigit vname ∨ "mirror".isPrefixOf vname ∨
      "spare".isPrefixOf vname ∨ "raidz".isPrefixOf vname then
    Except.error NameError.badStart
  else Except.ok vname

/-! ### `_clean_zfssize_fields` -/

/-- A letter of the class `[BKMGTP]` under `re.I`. -/
def sizeLetter (c : Char) : Bool :=
  c = 'B' || c = 'K' || c = 'M' || c = 'G' || c = 'T' || c = 'P' ||
  c = 'b' || c = 'k' || c = 'm' || c = 'g' || c = 't' || c = 'p'

/-- The optional suffix group `([BKMGTP](?:iB)?)?` followed by the end of
the string: given the characters remaining after the number, return the
suffix characters, or `none` when the remainder matches neither the group
nor the empty string. -/
def matchSuffix (num : List Char) (rest : List Char) : Option (List Char × List Char) :=
  match rest with
  | [] => some (num, [])
  | c :: rest2 =>
    if sizeLetter c then
      match rest2 with
      | [] => some (num, [c])
      | [i, b] =>
        if (i = 'i' ∨ i = 'I') ∧ (b = 'b' ∨ b = 'B') then some (num, [c, i, b])
        else none
      | _ => none
    else none

/-- `re.compile(r'^(\d+(?:\.\d+)?)([BKMGTP](?:iB)?)?$', re.I)` applied to
a character list: on a match, the two groups (number, suffix). -/
def matchSize (cs : List Char) : Option (List Char × List Char) :=
  let ds := cs.takeWhile Char.isDigit
  let rest := cs.dropWhile Char.isDigit
  if ds = [] then none
  else
    match rest with
    | '.' :: rest2 =>
      let fs := rest2.takeWhile Char.isDigit
      let rest3 := rest2.dropWhile Char.isDigit
      if fs = [] then none
      else matchSuffix (ds ++ '.' :: fs) rest3
    | _ => matchSuffix ds rest

/-- `value.replace(' ', '')`. -/
def stripSpaces (s : String) : String :=
  String.mk (s.data.filter (fun c => c ≠ ' '))

/-- `suffix.lower().endswith('ib')`. -/
def endsWithIb (cs : List Char) : Bool :=
  match (cs.map Char.toLower).reverse with
  | b :: i :: _ => b = 'b' && i = 'i'
  | _ => false

/-- The treatment of one field value by `_clean_zfssize_fields`: `none`
when the error message is recorded and the field deleted from the cleaned
data, `some v` when the field is kept with value `v`.  The `Decimal(number)`
re-check of the source cannot fail, since the number group has already
matched `\d+(?:\.\d+)?`. -/
def cleanZfsSize (value : String) : Option String :=
  match matchSize (stripSpaces value).data with
  | none => if value = "0" then some value else none
  | some (num, suffix) =>
    match suffix with
    | c :: _ => if endsWithIb suffix then some (String.mk (num ++ [c])) else some value
    | [] => some value

/-! ### `VolumeManagerForm.save` -/

/-- The database rows `save` touches: the `Volume` rows and the `Scrub`
rows (a scrub row is identified here by its volume's name). -/
structure DB where
  volumes : List String
  scrubs : List String
deriving Repr, DecidableEq

/-- The side-effecting calls of the `try` block of
`VolumeManagerForm.save`, in the order the code performs them; any of
them can raise. -/
inductive SaveOp where
  | volSave
  | zfsAttachGroup (i : Nat)
  | zfsCreateVolume
  | zfsSetDedup
  | scrubCreate
deriving Repr, DecidableEq

/-- The effect of one call on the database rows: `volume.save()` inserts
the volume row, `Scrub.objects.create` inserts the scrub row, the
notifier calls touch no row. -/
def applyOp (name : String) : SaveOp → DB → DB
  | SaveOp.volSave, db => DB.mk (db.volumes ++ [name]) db.scrubs
  | SaveOp.scrubCreate, db => DB.mk db.volumes (db.scrubs ++ [name])
  | _, db => db

/-- Run the calls in order against the database; `fails` tells which call
raises.  A raising call performs no database change; the first raise
aborts the list and is returned. -/
def runOps (name : String) (fails : SaveOp → Bool) : List SaveOp → DB → DB × Option SaveOp
  | [], db => (db, none)
  | op :: rest, db =>
    if fails op then (db, some op)
    else runOps name fails rest (applyOp name op db)

/-- The calls of the `try` block: when appending (`add`), one
`zfs_volume_attach_group` per grouped form; when creating, `volume.save()`
then `create_volume`, then `zfs_set_option(..., "dedup", ...)` when dedup
was requested, then the `Scrub` row creation. -/
def saveOps (add : Bool) (k : Nat) (dedup : Bool) : List SaveOp :=
  if add then (List.range k).map SaveOp.zfsAttachGroup
  else [SaveOp.volSave, SaveOp.zfsCreateVolume] ++
    (if dedup then [SaveOp.zfsSetDedup] else []) ++ [SaveOp.scrubCreate]

/-- Outcome of the modelled `save`: the database afterwards, whether the
exception propagated, and the `volume.delete(destroy, cascade)` calls the
`except` handler performed. -/
structure SaveOutcome where
  db : DB
  raised : Bool
  volDeleteCalls : List (String × Bool × Bool)
deriving Repr, DecidableEq

/-- The `try`/`except` block of `VolumeManagerForm.save`, for a submission
with volume name `name`, `k` grouped vdev forms and dedup choice `dedup`.
`add` is decided exactly as in the source, by whether a volume row with
that name already exists.  On an exception the handler runs: when not
appending it calls `volume.delete(destroy=False, cascade=False)`; the
`scrub` variable is still `None` whenever the handler runs, because the
`Scrub` creation is the last statement of the `try` block, so
`scrub.delete()` never executes. -/
def volumeManagerSave (db0 : DB) (name : String) (k : Nat) (dedup : Bool)
    (fails : SaveOp → Bool) : SaveOutcome :=
  let add := name ∈ db0.volumes
  let res := runOps name fails (saveOps add k dedup) db0
  match res.2 with
  | none => SaveOutcome.mk res.1 false []
  | some _ =>
    if add then SaveOutcome.mk res.1 true []
    else SaveOutcome.mk (DB.mk (res.1.volumes.erase name) res.1.scrubs) true
      [(name, false, false)]

/-! ### `CronJobService` -/

/-- Whitespace as `int()` strips it. -/
def isPySpace (c : Char) : Bool :=
  c = ' ' ∨ c = '\t' ∨ c = '\n' ∨ c = '\r'

/-- Strip leading and trailing whitespace, as `int()` does before
converting. -/
def pyStrip (cs : List Char) : List Char :=
  ((cs.dropWhile isPySpace).reverse.dropWhile isPySpace).reverse

/-- `str.split(',')`: split on every comma, keeping empty pieces. -/
def splitCommaAux : List Char → List Char → List (List Char)
  | [], acc => [acc.reverse]
  | c :: rest, acc =>
    if c = ',' then acc.reverse :: splitCommaAux rest []
    else splitCommaAux rest (c :: acc)

/-- `s.split(',')` on a string. -/
def pySplit (s : String) : List String :=
  (splitCommaAux s.data []).map String.mk

/-- `int(s)` on one comma-separated entry: optional surrounding
whitespace, an optional sign, then at least one ASCII digit.  (CPython's
digit-group underscores and non-ASCII decimal digits are not modelled.) -/
def pyInt? (s : String) : Option Int :=
  let base : List Char → Option Nat := fun ds =>
    if ds ≠ [] ∧ ds.all Char.isDigit then
      some (ds.foldl (fun acc c => acc * 10 + (c.toNat - '0'.toNat)) 0)
    else none
  match pyStrip s.data with
  | '-' :: ds => (base ds).map (fun n => -(n : Int))
  | '+' :: ds => (base ds).map (fun n => (n : Int))
  | ds => (base ds).map (fun n => (n : Int))

/-- The validation errors `CronJobService.validate_data` can record, one
constructor per `verrors.add` call. -/
inductive CronError where
  | weekdayInvalid
  | weekdayRange
  | monthInvalid
  | monthRange
  | userSpaces
  | userMissing
deriving Repr, DecidableEq

/-- The cleaned fields of a cron-job payload that `validate_data`
inspects; `none` models an absent key (`data.get` returning `None`). -/
structure CronData where
  dayweek : Option String
  month : Option String
  user : Option String
deriving Repr, DecidableEq

/-- The list comprehension `[int(day) for day in weekdays.split(',')]`:
`none` when some entry makes `int` raise `ValueError`, otherwise the list
of converted entries. -/
def intList? : List String → Option (List Int)
  | [] => some []
  | s :: rest =>
    match pyInt? s with
    | none => none
    | some n =>
      match intList? rest with
      | none => none
      | some ns => some (n :: ns)

/-- One of the two identical field blocks of `validate_data`: skip falsy
values (absent or empty) and `'*'`; split on commas and convert each entry
with `int`, recording `einv` when a conversion raises `ValueError`, and
otherwise `erng` when some converted entry lies outside `lo..hi`
(`range(lo, hi+1)`). -/
def checkField (val : Option String) (lo hi : Int) (einv erng : CronError) : List CronError :=
  match val with
  | none => []
  | some s =>
    if s = "" ∨ s = "*" then []
    else
      match intList? (pySplit s) with
      | none => [einv]
      | some ns =>
        if ns.any (fun n => decide (n < lo) || decide (hi < n)) then [erng] else []

/-- The user block of `validate_data`: skip a falsy user, reject
usernames with spaces, then reject users the middleware lookup does not
know. -/
def checkUser (userOk : String → Bool) (u : Option String) : List CronError :=
  match u with
  | none => []
  | some v =>
    if v = "" then []
    else if v.data.contains ' ' then [CronError.userSpaces]
    else if userOk v then [] else [CronError.userMissing]

/-- `CronJobService.validate_data`: the accumulated `verrors`, in the
order the source records them.  The middleware user lookup
`notifier.get_user_object` is the external parameter `userOk`. -/
def validateData (userOk : String → Bool) (d : CronData) : List CronError :=
  checkField d.dayweek 1 7 CronError.weekdayInvalid CronError.weekdayRange ++
  checkField d.month 1 12 CronError.monthInvalid CronError.monthRange ++
  checkUser userOk d.user

/-- The side effects `do_create` performs after a successful validation,
in order. -/
inductive CronEffect where
  | datastoreInsert
  | restartCron
deriving Repr, DecidableEq

/-- `CronJobService.do_create`: raise the accumulated errors when there
are any (`if verrors: raise verrors`), otherwise insert into the datastore
and restart the cron service, returning the data. -/
def doCreate (userOk : String → Bool) (d : CronData) :
    Except (List CronError) (CronData × List CronEffect) :=
  let verrors := validateData userOk d
  if verrors ≠ [] then Except.error verrors
  else Except.ok (d, [CronEffect.datastoreInsert, CronEffect.restartCron])

/-! ## Theorems -/

/-- Claim C1: `clean_disks` raises "You need at least %d disks" exactly
when the disk list is shorter than the minimum for the vdev type (2 for
mirror, 3 for raidz, 4 for raidz2, 5 for raidz3); every other type
accepts a list of any length, and an accepted list is returned
unchanged. -/
theorem c1_clean_disks_minimum (t : String) (ds : List String) :
    cleanDisks t ds =
      (match minDisksSpec t with
       | some n =>
         if ds.length < n then Except.error (FormError.atLeast n) else Except.ok ds
       | none => Except.ok ds) := by
  unfold cleanDisks minDisksSpec
  by_cases h1 : t = "mirror" <;> by_cases h2 : t = "raidz" <;>
    by_cases h3 : t = "raidz2" <;> by_cases h4 : t = "raidz3" <;>
    simp_all

/-- Claim C9: `VolumeVdevForm.clean` rewrites a submitted vdevtype `log`
to `log mirror` exactly when more than one disk is selected, leaves the
disk list untouched, and (being a total rewrite, not a check) never
raises. -/
theorem c9_log_rewrite (row : VdevRow) :
    (formClean row).disks = row.disks ∧
    (formClean row).vdevtype =
      (if row.vdevtype = "log" ∧ row.disks.length > 1 then "log mirror"
       else row.vdevtype) := by
  unfold formClean
  split_ifs <;> simp

/-- Counterexample to claim C6: the empty volume name does not match
`^[a-z][-_.a-z0-9]*$`, yet `clean_volume_name` accepts it — the regular
expression check is guarded by `if vname and ...` and is skipped for a
falsy name. -/
theorem c6_counterexample :
    cleanVolumeName [] "" = Except.ok "" ∧ matchesNameRe "" = false := by
  exact ⟨rfl, rfl⟩

/-- Claim C6 (amended): a submitted volume name is accepted iff it is
empty or matches `^[a-z][-_.a-z0-9]*$` (case-insensitively), is not an
existing volume name, is not the reserved word `log`, and does not start
with `c` followed by a digit nor with `mirror`, `spare` or `raidz`; an
accepted name is returned unchanged. -/
theorem c6_clean_volume_name (existing : List String) (vname : String) :
    (cleanVolumeName existing vname = Except.ok vname ↔
      ((vname = "" ∨ matchesNameRe vname = true) ∧ vname ∉ existing ∧
       vname ≠ "log" ∧ startsWithCDigit vname = false ∧
       "mirror".isPrefixOf vname = false ∧ "spare".isPrefixOf vname = false ∧
       "raidz".isPrefixOf vname = false)) ∧
    (∀ r, cleanVolumeName existing vname = Except.ok r → r = vname) := by
  constructor
  · unfold cleanVolumeName
    split_ifs with h1 h2 h3 h4
    · simp only [reduceCtorEq, false_iff]
      rintro ⟨h, -⟩
      rcases h with h | h
      · exact h1.1 h
      · exact h1.2 h
    · simp only [reduceCtorEq, false_iff]
      rintro ⟨-, hmem, -⟩
      exact hmem h2
    · simp only [reduceCtorEq, false_iff]
      rintro ⟨-, -, hlog, -⟩
      exact hlog h3
    · simp only [reduceCtorEq, false_iff]
      rintro ⟨-, -, -, hc, hm, hs, hr⟩
      rcases h4 with h | h | h | h
      · simp [hc] at h
      · simp [hm] at h
      · simp [hs] at h
      · simp [hr] at h
    · simp only [Except.ok.injEq, true_iff]
      have hfirst : vname = "" ∨ matchesNameRe vname = true := by
        by_cases hv : vname = ""
        · exact Or.inl hv
        · right
          by_contra hmre
          exact h1 ⟨hv, hmre⟩
      simp only [not_or, Bool.not_eq_true] at h4
      exact ⟨hfirst, h2, h3, h4.1, h4.2.1, h4.2.2.1, h4.2.2.2⟩
  · intro r h
    unfold cleanVolumeName at h
    split_ifs at h <;> simp_all

/-- Witness for claim C6: the name `tank` satisfies every condition and
is accepted. -/
theorem c6_witness : cleanVolumeName [] "tank" = Except.ok "tank" :=
  ((c6_clean_volume_name [] "tank").1).mpr (by decide)

theorem cleanZfsSize_suffix_nil (value : String) (num : List Char)
    (hm : matchSize (stripSpaces value).data = some (num, [])) :
    cleanZfsSize value = some value := by
  unfold cleanZfsSize
  rw [hm]

theorem cleanZfsSize_suffix_cons (value : String) (num : List Char) (c : Char)
    (rest : List Char) (hm : matchSize (stripSpaces value).data = some (num, c :: rest)) :
    cleanZfsSize value =
      (if endsWithIb (c :: rest) then some (String.mk (num ++ [c])) else some value) := by
  unfold cleanZfsSize
  rw [hm]

/-- Claim C7: a size field value is accepted exactly when, after removing
spaces, it is `0` or matches `^(\d+(?:\.\d+)?)([BKMGTP](?:iB)?)?$`
case-insensitively (rejection records the IEC-suffix error and deletes
the field, modelled by `none`); on every acceptance whose matched suffix
ends in `iB` the stored value is the number group followed by the
suffix's first letter (e.g. `10 GiB` becomes `10G`), and every other
acceptance keeps the submitted value unchanged. -/
theorem c7_zfssize_fields (value : String) :
    ((cleanZfsSize value).isSome ↔
      (stripSpaces value = "0" ∨ (matchSize (stripSpaces value).data).isSome)) ∧
    (∀ num suffix, matchSize (stripSpaces value).data = some (num, suffix) →
      (endsWithIb suffix = true →
        cleanZfsSize value = some (String.mk (num ++ suffix.take 1))) ∧
      (endsWithIb suffix = false → cleanZfsSize value = some value)) ∧
    cleanZfsSize "10 GiB" = some "10G" ∧
    cleanZfsSize "0" = some "0" ∧
    cleanZfsSize "12 KiB" = some "12K" ∧
    cleanZfsSize "3 pigs" = none := by
  refine ⟨?_, ?_, rfl, rfl, rfl, rfl⟩
  · unfold cleanZfsSize
    cases hm : matchSize (stripSpaces value).data with
    | some p =>
      rcases p with ⟨num, suffix⟩
      cases suffix <;> simp [hm] <;> split_ifs <;> simp
    | none =>
      by_cases hv : value = "0"
      · exfalso
        rw [hv] at hm
        have hconc : matchSize (stripSpaces "0").data = some (['0'], []) := rfl
        rw [hconc] at hm
        exact Option.noConfusion hm
      · simp only [hm, hv, if_false]
        constructor
        · intro h; exact absurd h (by simp)
        · intro h
          rcases h with h | h
          · rw [h] at hm
            have hconc : matchSize ("0" : String).data = some (['0'], []) := rfl
            rw [hconc] at hm
            exact Option.noConfusion hm
          · exact absurd h (by simp)
  · intro num suffix hm
    cases suffix with
    | nil =>
      exact ⟨fun h => absurd h (by decide),
        fun _ => cleanZfsSize_suffix_nil value num hm⟩
    | cons c rest =>
      rw [cleanZfsSize_suffix_cons value num c rest hm]
      constructor
      · intro h
        rw [if_pos h]
        rfl
      · intro h
        rw [if_neg (by simp [h])]

/-- Witness for claim C7: the general normalisation clause applied at
`5 TiB` (suffix `TiB`, normalised to `T`) and the kept-unchanged clause
at `7 M`. -/
theorem c7_witness :
    cleanZfsSize "5 TiB" = some "5T" ∧ cleanZfsSize "7 M" = some "7 M" := by
  have h1 := (c7_zfssize_fields "5 TiB").2.1 ['5'] ['T', 'i', 'B'] (by decide)
  have h2 := (c7_zfssize_fields "7 M").2.1 ['7'] ['M'] (by decide)
  exact ⟨h1.1 (by decide), h2.2 (by decide)⟩

/-! ### Step lemmas for the formset loops -/

theorem auxName?_none_of_isDataType (t : String) (h : isDataType t = true) :
    auxName? t = none := by
  unfold isDataType at h
  simp only [Bool.or_eq_true, decide_eq_true_eq] at h
  rcases h with (((h | h) | h) | h) | h <;> subst h <;> decide

theorem auxNames_nil : auxNames [] = [] := rfl

theorem auxNames_cons_none (r : VdevRow) (rest : List VdevRow)
    (ha : auxName? r.vdevtype = none) : auxNames (r :: rest) = auxNames rest := by
  simp [auxNames, List.filterMap_cons, ha]

theorem auxNames_cons_some (r : VdevRow) (rest : List VdevRow) (name : String)
    (ha : auxName? r.vdevtype = some name) :
    auxNames (r :: rest) = name :: auxNames rest := by
  simp [auxNames, List.filterMap_cons, ha]

theorem dataTypes_nil : dataTypes [] = [] := rfl

theorem dataTypes_cons_data (r : VdevRow) (rest : List VdevRow)
    (hd : isDataType r.vdevtype = true) :
    dataTypes (r :: rest) = r.vdevtype :: dataTypes rest := by
  simp [dataTypes, List.filter_cons, hd]

theorem dataTypes_cons_other (r : VdevRow) (rest : List VdevRow)
    (hd : isDataType r.vdevtype = false) :
    dataTypes (r :: rest) = dataTypes rest := by
  simp [dataTypes, List.filter_cons, hd]

theorem cleanNewLoop_cons_data_none (r : VdevRow) (rest : List VdevRow)
    (found : List String) (has : Bool) (hd : isDataType r.vdevtype = true) :
    cleanNewLoop (r :: rest) found none has =
      cleanNewLoop rest found (some r.vdevtype) true := by
  simp [cleanNewLoop, hd]

theorem cleanNewLoop_cons_data_some (r : VdevRow) (rest : List VdevRow)
    (found : List String) (d : String) (has : Bool) (hd : isDataType r.vdevtype = true) :
    cleanNewLoop (r :: rest) found (some d) has =
      (if d ≠ r.vdevtype then Except.error (FormError.differentDataTypes d r.vdevtype)
       else cleanNewLoop rest found (some r.vdevtype) true) := by
  simp only [cleanNewLoop, hd, if_true]

theorem cleanNewLoop_cons_skip (r : VdevRow) (rest : List VdevRow)
    (found : List String) (dt : Option String) (has : Bool)
    (hd : isDataType r.vdevtype = false) (ha : auxName? r.vdevtype = none) :
    cleanNewLoop (r :: rest) found dt has = cleanNewLoop rest found dt has := by
  simp [cleanNewLoop, hd, cleanVdevtype, ha]

theorem cleanNewLoop_cons_dup (r : VdevRow) (rest : List VdevRow)
    (found : List String) (dt : Option String) (has : Bool) (name : String)
    (hd : isDataType r.vdevtype = false) (ha : auxName? r.vdevtype = some name)
    (hmem : name ∈ found) :
    cleanNewLoop (r :: rest) found dt has = Except.error (FormError.onlyOneRow name) := by
  simp [cleanNewLoop, hd, cleanVdevtype, ha, hmem]

theorem cleanNewLoop_cons_fresh (r : VdevRow) (rest : List VdevRow)
    (found : List String) (dt : Option String) (has : Bool) (name : String)
    (hd : isDataType r.vdevtype = false) (ha : auxName? r.vdevtype = some name)
    (hmem : name ∉ found) :
    cleanNewLoop (r :: rest) found dt has = cleanNewLoop rest (name :: found) dt has := by
  simp [cleanNewLoop, hd, cleanVdevtype, ha, hmem]

theorem auxName?_empty : auxName? "" = none := rfl

theorem cleanAddAux_cons_none (r : VdevRow) (rest : List VdevRow)
    (found : List String) (ha : auxName? r.vdevtype = none) :
    cleanAddAux (r :: rest) found = cleanAddAux rest found := by
  by_cases he : r.vdevtype = "" <;> simp [cleanAddAux, he, ha]

theorem cleanAddAux_cons_dup (r : VdevRow) (rest : List VdevRow)
    (found : List String) (name : String) (ha : auxName? r.vdevtype = some name)
    (hmem : name ∈ found) :
    cleanAddAux (r :: rest) found = Except.error (FormError.onlyOneRow name) := by
  have he : r.vdevtype ≠ "" := by
    intro h
    rw [h, auxName?_empty] at ha
    exact Option.noConfusion ha
  simp [cleanAddAux, he, ha, cleanVdevtype, hmem]

theorem cleanAddAux_cons_fresh (r : VdevRow) (rest : List VdevRow)
    (found : List String) (name : String) (ha : auxName? r.vdevtype = some name)
    (hmem : name ∉ found) :
    cleanAddAux (r :: rest) found = cleanAddAux rest (name :: found) := by
  have he : r.vdevtype ≠ "" := by
    intro h
    rw [h, auxName?_empty] at ha
    exact Option.noConfusion ha
  simp [cleanAddAux, he, ha, cleanVdevtype, hmem]

theorem matchRows_cons_skip (v : PoolVdev) (r : VdevRow) (rest : List VdevRow)
    (h : r.vdevtype = "" ∨ (auxName? r.vdevtype).isSome = true) :
    matchRows v (r :: rest) = matchRows v rest := by
  rcases h with h | h
  · simp [matchRows, h]
  · by_cases he : r.vdevtype = "" <;> simp [matchRows, he, h]

theorem matchRows_cons_check (v : PoolVdev) (r : VdevRow) (rest : List VdevRow)
    (h1 : r.vdevtype ≠ "") (h2 : auxName? r.vdevtype = none) :
    matchRows v (r :: rest) =
      (match vdevMismatch v r with
       | some e => Except.error e
       | none => matchRows v rest) := by
  simp [matchRows, h1, h2]

theorem mismatchErrs_cons_skip (v : PoolVdev) (r : VdevRow) (rest : List VdevRow)
    (h : r.vdevtype = "" ∨ (auxName? r.vdevtype).isSome = true) :
    mismatchErrs v (r :: rest) = mismatchErrs v rest := by
  rcases h with h | h
  · simp [mismatchErrs, List.filterMap_cons, h]
  · by_cases he : r.vdevtype = "" <;> simp [mismatchErrs, List.filterMap_cons, he, h]

theorem mismatchErrs_cons_check (v : PoolVdev) (r : VdevRow) (rest : List VdevRow)
    (h1 : r.vdevtype ≠ "") (h2 : auxName? r.vdevtype = none) :
    mismatchErrs v (r :: rest) =
      (match vdevMismatch v r with
       | some e => e :: mismatchErrs v rest
       | none => mismatchErrs v rest) := by
  cases hm : vdevMismatch v r <;> simp [mismatchErrs, List.filterMap_cons, h1, h2, hm]

theorem cleanNewLoop_true_ne_need (rows : List VdevRow) :
    ∀ found dt, cleanNewLoop rows found dt true ≠ Except.error FormError.needDataGroup := by
  induction rows with
  | nil => intro found dt; simp [cleanNewLoop]
  | cons r rest ih =>
    intro found dt
    by_cases hd : isDataType r.vdevtype = true
    · cases dt with
      | none =>
        rw [cleanNewLoop_cons_data_none r rest found true hd]
        exact ih found _
      | some d =>
        rw [cleanNewLoop_cons_data_some r rest found d true hd]
        by_cases he : d ≠ r.vdevtype
        · rw [if_pos he]; simp
        · rw [if_neg he]; exact ih found _
    · simp only [Bool.not_eq_true] at hd
      cases ha : auxName? r.vdevtype with
      | none =>
        rw [cleanNewLoop_cons_skip r rest found dt true hd ha]
        exact ih found dt
      | some name =>
        by_cases hmem : name ∈ found
        · rw [cleanNewLoop_cons_dup r rest found dt true name hd ha hmem]; simp
        · rw [cleanNewLoop_cons_fresh r rest found dt true name hd ha hmem]
          exact ih _ dt

theorem cleanNewLoop_need_iff (rows : List VdevRow) :
    ∀ found, cleanNewLoop rows found none false = Except.error FormError.needDataGroup ↔
      ((∀ r ∈ rows, isDataType r.vdevtype = false) ∧ (auxNames rows).Nodup ∧
       ∀ n ∈ auxNames rows, n ∉ found) := by
  induction rows with
  | nil => intro found; simp [cleanNewLoop, auxNames_nil]
  | cons r rest ih =>
    intro found
    by_cases hd : isDataType r.vdevtype = true
    · rw [cleanNewLoop_cons_data_none r rest found false hd]
      constructor
      · intro h
        exact absurd h (cleanNewLoop_true_ne_need rest found _)
      · rintro ⟨hall, -⟩
        have hr := hall r (List.mem_cons_self r rest)
        rw [hd] at hr
        exact Bool.noConfusion hr
    · simp only [Bool.not_eq_true] at hd
      cases ha : auxName? r.vdevtype with
      | none =>
        rw [cleanNewLoop_cons_skip r rest found none false hd ha, ih found,
          auxNames_cons_none r rest ha]
        constructor
        · rintro ⟨h1, h2, h3⟩
          refine ⟨fun x hx => ?_, h2, h3⟩
          rcases List.mem_cons.mp hx with h | h
          · rw [h]; exact hd
          · exact h1 x h
        · rintro ⟨h1, h2, h3⟩
          exact ⟨fun x hx => h1 x (List.mem_cons_of_mem r hx), h2, h3⟩
      | some name =>
        by_cases hmem : name ∈ found
        · rw [cleanNewLoop_cons_dup r rest found none false name hd ha hmem,
            auxNames_cons_some r rest name ha]
          constructor
          · intro h; simp at h
          · rintro ⟨-, -, h3⟩
            exact absurd hmem (h3 name (List.mem_cons_self name _))
        · rw [cleanNewLoop_cons_fresh r rest found none false name hd ha hmem,
            ih (name :: found), auxNames_cons_some r rest name ha]
          constructor
          · rintro ⟨h1, h2, h3⟩
            refine ⟨fun x hx => ?_, List.nodup_cons.mpr ⟨fun hc => ?_, h2⟩, fun n hn => ?_⟩
            · rcases List.mem_cons.mp hx with h | h
              · rw [h]; exact hd
              · exact h1 x h
            · exact (h3 name hc) (List.mem_cons_self name found)
            · rcases List.mem_cons.mp hn with h | h
              · rw [h]; exact hmem
              · intro hf
                exact (h3 n h) (List.mem_cons_of_mem name hf)
          · rintro ⟨h1, h2, h3⟩
            refine ⟨fun x hx => h1 x (List.mem_cons_of_mem r hx),
              (List.nodup_cons.mp h2).2, fun n hn hf => ?_⟩
            rcases List.mem_cons.mp hf with h | h
            · rw [h] at hn
              exact (List.nodup_cons.mp h2).1 hn
            · exact (h3 n (List.mem_cons_of_mem name hn)) h

/-- Counterexample to claim C2: a formset of two `log` rows has no form
with a data vdev type, yet the create branch of `VdevFormSet.clean` does
not raise "You need a data disk group" — the duplicate auxiliary row is
hit first and "Only one row ..." is raised instead. -/
theorem c2_counterexample :
    cleanNew [VdevRow.mk "log" ["da0"], VdevRow.mk "log" ["da1"]] =
      Except.error (FormError.onlyOneRow "log") ∧
    isDataType "log" = false ∧
    FormError.onlyOneRow "log" ≠ FormError.needDataGroup := by
  refine ⟨rfl, rfl, by decide⟩

/-- Claim C2 (amended): when creating a new volume with all forms
individually valid, `VdevFormSet.clean` raises "You need a data disk
group" iff no form has a data vdev type (`mirror`, `stripe`, `raidz`,
`raidz2`, `raidz3`) and, in addition, no auxiliary vdev type (`cache`,
`log`/`log mirror`, `spare`) occurs on more than one row — a duplicated
auxiliary row is reported (as "Only one row ...") before the missing data
group is. -/
theorem c2_need_data_group (rows : List VdevRow) :
    cleanNew rows = Except.error FormError.needDataGroup ↔
      ((∀ r ∈ rows, isDataType r.vdevtype = false) ∧ (auxNames rows).Nodup) := by
  rw [cleanNew, cleanNewLoop_need_iff rows []]
  simp

theorem cleanNewLoop_eq_checkData (rows : List VdevRow) :
    ∀ found dt has, (auxNames rows).Nodup → (∀ n ∈ auxNames rows, n ∉ found) →
      cleanNewLoop rows found dt has = checkData (dataTypes rows) dt has := by
  induction rows with
  | nil =>
    intro found dt has _ _
    simp [cleanNewLoop, checkData, dataTypes_nil]
  | cons r rest ih =>
    intro found dt has hnd hdisj
    by_cases hd : isDataType r.vdevtype = true
    · rw [dataTypes_cons_data r rest hd]
      have ha := auxName?_none_of_isDataType _ hd
      rw [auxNames_cons_none r rest ha] at hnd hdisj
      cases dt with
      | none =>
        rw [cleanNewLoop_cons_data_none r rest found has hd]
        exact ih found _ _ hnd hdisj
      | some d =>
        rw [cleanNewLoop_cons_data_some r rest found d has hd]
        by_cases he : d ≠ r.vdevtype
        · simp only [checkData, if_pos he]
        · simp only [checkData, if_neg he]
          exact ih found _ _ hnd hdisj
    · simp only [Bool.not_eq_true] at hd
      rw [dataTypes_cons_other r rest hd]
      cases ha : auxName? r.vdevtype with
      | none =>
        rw [cleanNewLoop_cons_skip r rest found dt has hd ha]
        rw [auxNames_cons_none r rest ha] at hnd hdisj
        exact ih found dt has hnd hdisj
      | some name =>
        rw [auxNames_cons_some r rest name ha] at hnd hdisj
        have hmem : name ∉ found := hdisj name (List.mem_cons_self name _)
        rw [cleanNewLoop_cons_fresh r rest found dt has name hd ha hmem]
        apply ih
        · exact (List.nodup_cons.mp hnd).2
        · intro n hn hf
          rcases List.mem_cons.mp hf with h | h
          · rw [h] at hn
            exact (List.nodup_cons.mp hnd).1 hn
          · exact (hdisj n (List.mem_cons_of_mem name hn)) h

theorem checkData_diff_iff (ts : List String) :
    ∀ t, (∃ t1 t2, checkData ts (some t) true =
        Except.error (FormError.differentDataTypes t1 t2)) ↔
      ∃ u ∈ ts, u ≠ t := by
  induction ts with
  | nil => intro t; simp [checkData]
  | cons u us ih =>
    intro t
    by_cases he : t = u
    · subst he
      have hstep : checkData (t :: us) (some t) true = checkData us (some t) true := by
        simp [checkData]
      rw [hstep, ih t]
      constructor
      · rintro ⟨x, hx, hne⟩
        exact ⟨x, List.mem_cons_of_mem t hx, hne⟩
      · rintro ⟨x, hx, hne⟩
        rcases List.mem_cons.mp hx with h | h
        · exact absurd h hne
        · exact ⟨x, h, hne⟩
    · have hstep : checkData (u :: us) (some t) true =
          Except.error (FormError.differentDataTypes t u) := by
        simp [checkData, he]
      rw [hstep]
      constructor
      · intro _
        exact ⟨u, List.mem_cons_self u us, fun h => he h.symm⟩
      · intro _
        exact ⟨t, u, rfl⟩

theorem mem_dataTypes (rows : List VdevRow) (x : String) :
    x ∈ dataTypes rows ↔ ∃ r ∈ rows, isDataType r.vdevtype = true ∧ r.vdevtype = x := by
  simp [dataTypes, List.mem_filter, and_assoc]

theorem exists_pair_ne_cons (t : String) (ts : List String) :
    (∃ x ∈ t :: ts, ∃ y ∈ t :: ts, x ≠ y) ↔ ∃ u ∈ ts, u ≠ t := by
  constructor
  · rintro ⟨x, hx, y, hy, hne⟩
    rcases List.mem_cons.mp hx with hx1 | hx1 <;> rcases List.mem_cons.mp hy with hy1 | hy1
    · rw [hx1, hy1] at hne
      exact absurd rfl hne
    · refine ⟨y, hy1, ?_⟩
      rw [hx1] at hne
      exact fun h => hne h.symm
    · refine ⟨x, hx1, ?_⟩
      rw [hy1] at hne
      exact hne
    · by_cases hxt : x = t
      · refine ⟨y, hy1, ?_⟩
        rw [hxt] at hne
        exact fun h => hne h.symm
      · exact ⟨x, hx1, hxt⟩
  · rintro ⟨u, hu, hne⟩
    exact ⟨u, List.mem_cons_of_mem t hu, t, List.mem_cons_self t ts, hne⟩

theorem pair_rows_iff_pair_dataTypes (rows : List VdevRow) :
    (∃ r1 ∈ rows, ∃ r2 ∈ rows, isDataType r1.vdevtype = true ∧
      isDataType r2.vdevtype = true ∧ r1.vdevtype ≠ r2.vdevtype) ↔
    (∃ x ∈ dataTypes rows, ∃ y ∈ dataTypes rows, x ≠ y) := by
  constructor
  · rintro ⟨r1, hr1, r2, hr2, hd1, hd2, hne⟩
    exact ⟨r1.vdevtype, (mem_dataTypes rows _).mpr ⟨r1, hr1, hd1, rfl⟩,
      r2.vdevtype, (mem_dataTypes rows _).mpr ⟨r2, hr2, hd2, rfl⟩, hne⟩
  · rintro ⟨x, hx, y, hy, hne⟩
    obtain ⟨r1, hr1, hd1, hx1⟩ := (mem_dataTypes rows x).mp hx
    obtain ⟨r2, hr2, hd2, hy1⟩ := (mem_dataTypes rows y).mp hy
    refine ⟨r1, hr1, r2, hr2, hd1, hd2, ?_⟩
    rw [hx1, hy1]
    exact hne

/-- Counterexample to claim C3: the formset
`[log, log, mirror, raidz]` (each row individually valid) carries two
different data vdev types, yet the create branch of `VdevFormSet.clean`
raises "Only one row ..." for the duplicated `log` row, which precedes
the second data row, and not the different-data-vdev-types error. -/
theorem c3_counterexample :
    cleanNew [VdevRow.mk "log" ["da0"], VdevRow.mk "log" ["da1"],
        VdevRow.mk "mirror" ["da2", "da3"],
        VdevRow.mk "raidz" ["da4", "da5", "da6"]] =
      Except.error (FormError.onlyOneRow "log") ∧
    isDataType "mirror" = true ∧ isDataType "raidz" = true ∧
    ("mirror" : String) ≠ "raidz" := by
  refine ⟨rfl, rfl, rfl, by decide⟩

/-- Claim C3 (amended): when creating a new volume, provided no auxiliary
vdev type occurs on more than one row (a duplicated auxiliary row is
reported first), `VdevFormSet.clean` raises "You are not allowed to
create a volume with different data vdev types" exactly when two forms
carry different data vdev types; in particular a formset whose data vdevs
all share one type never triggers this error, however many data rows it
has. -/
theorem c3_different_data_types (rows : List VdevRow) (h : (auxNames rows).Nodup) :
    (∃ r1 ∈ rows, ∃ r2 ∈ rows, isDataType r1.vdevtype = true ∧
      isDataType r2.vdevtype = true ∧ r1.vdevtype ≠ r2.vdevtype) ↔
    ∃ t1 t2, cleanNew rows = Except.error (FormError.differentDataTypes t1 t2) := by
  rw [cleanNew, cleanNewLoop_eq_checkData rows [] none false h (by simp)]
  rw [pair_rows_iff_pair_dataTypes rows]
  cases hdt : dataTypes rows with
  | nil =>
    simp [checkData]
  | cons t ts =>
    have hstep : checkData (t :: ts) none false = checkData ts (some t) true := rfl
    rw [hstep, exists_pair_ne_cons t ts, checkData_diff_iff ts t]

/-- Witness for claim C3: a mirror row and a raidz row trigger the
different-data-vdev-types error. -/
theorem c3_witness :
    ∃ t1 t2, cleanNew [VdevRow.mk "mirror" ["da0", "da1"],
        VdevRow.mk "raidz" ["da2", "da3", "da4"]] =
      Except.error (FormError.differentDataTypes t1 t2) :=
  (c3_different_data_types
    [VdevRow.mk "mirror" ["da0", "da1"], VdevRow.mk "raidz" ["da2", "da3", "da4"]]
    (by decide)).mp (by decide)

theorem cleanNewLoop_ok_nodup (rows : List VdevRow) :
    ∀ found dt has, cleanNewLoop rows found dt has = Except.ok () →
      (auxNames rows).Nodup ∧ ∀ n ∈ auxNames rows, n ∉ found := by
  induction rows with
  | nil =>
    intro found dt has _
    simp [auxNames_nil]
  | cons r rest ih =>
    intro found dt has h
    by_cases hd : isDataType r.vdevtype = true
    · have ha := auxName?_none_of_isDataType _ hd
      rw [auxNames_cons_none r rest ha]
      cases dt with
      | none =>
        rw [cleanNewLoop_cons_data_none r rest found has hd] at h
        exact ih found _ _ h
      | some d =>
        rw [cleanNewLoop_cons_data_some r rest found d has hd] at h
        by_cases he : d ≠ r.vdevtype
        · rw [if_pos he] at h
          exact Except.noConfusion h
        · rw [if_neg he] at h
          exact ih found _ _ h
    · simp only [Bool.not_eq_true] at hd
      cases ha : auxName? r.vdevtype with
      | none =>
        rw [auxNames_cons_none r rest ha]
        rw [cleanNewLoop_cons_skip r rest found dt has hd ha] at h
        exact ih found dt has h
      | some name =>
        rw [auxNames_cons_some r rest name ha]
        by_cases hmem : name ∈ found
        · rw [cleanNewLoop_cons_dup r rest found dt has name hd ha hmem] at h
          exact Except.noConfusion h
        · rw [cleanNewLoop_cons_fresh r rest found dt has name hd ha hmem] at h
          obtain ⟨hnd, hdisj⟩ := ih _ dt has h
          refine ⟨List.nodup_cons.mpr ⟨fun hc => ?_, hnd⟩, fun n hn hf => ?_⟩
          · exact (hdisj name hc) (List.mem_cons_self name found)
          · rcases List.mem_cons.mp hn with hh | hh
            · rw [hh] at hf
              exact hmem hf
            · exact (hdisj n hh) (List.mem_cons_of_mem name hf)

theorem cleanNewLoop_dup_onlyOneRow (rows : List VdevRow) :
    ∀ found dt has,
      (∀ r1 ∈ rows, ∀ r2 ∈ rows, isDataType r1.vdevtype = true →
        isDataType r2.vdevtype = true → r1.vdevtype = r2.vdevtype) →
      (∀ t, dt = some t → ∀ r ∈ rows, isDataType r.vdevtype = true → r.vdevtype = t) →
      (¬ (auxNames rows).Nodup ∨ ∃ n ∈ auxNames rows, n ∈ found) →
      ∃ name, cleanNewLoop rows found dt has = Except.error (FormError.onlyOneRow name) := by
  induction rows with
  | nil =>
    intro found dt has _ _ hdup
    rcases hdup with h | ⟨n, hn, -⟩
    · rw [auxNames_nil] at h
      exact absurd List.nodup_nil h
    · rw [auxNames_nil] at hn
      exact absurd hn (List.not_mem_nil n)
  | cons r rest ih =>
    intro found dt has hsame hdtc hdup
    have hsame2 : ∀ r1 ∈ rest, ∀ r2 ∈ rest, isDataType r1.vdevtype = true →
        isDataType r2.vdevtype = true → r1.vdevtype = r2.vdevtype :=
      fun r1 h1 r2 h2 => hsame r1 (List.mem_cons_of_mem r h1) r2 (List.mem_cons_of_mem r h2)
    by_cases hd : isDataType r.vdevtype = true
    · have ha := auxName?_none_of_isDataType _ hd
      rw [auxNames_cons_none r rest ha] at hdup
      have hdtc2 : ∀ t, (some r.vdevtype : Option String) = some t →
          ∀ x ∈ rest, isDataType x.vdevtype = true → x.vdevtype = t := by
        intro t ht x hx hdx
        cases ht
        exact hsame x (List.mem_cons_of_mem r hx) r (List.mem_cons_self r rest) hdx hd
      cases dt with
      | none =>
        rw [cleanNewLoop_cons_data_none r rest found has hd]
        exact ih found _ _ hsame2 hdtc2 hdup
      | some d =>
        have hdr : r.vdevtype = d := hdtc d rfl r (List.mem_cons_self r rest) hd
        rw [cleanNewLoop_cons_data_some r rest found d has hd,
          if_neg (show ¬ d ≠ r.vdevtype from fun hne => hne hdr.symm)]
        exact ih found _ _ hsame2 hdtc2 hdup
    · simp only [Bool.not_eq_true] at hd
      have hdtc2 : ∀ t, dt = some t →
          ∀ x ∈ rest, isDataType x.vdevtype = true → x.vdevtype = t :=
        fun t ht x hx => hdtc t ht x (List.mem_cons_of_mem r hx)
      cases ha : auxName? r.vdevtype with
      | none =>
        rw [auxNames_cons_none r rest ha] at hdup
        rw [cleanNewLoop_cons_skip r rest found dt has hd ha]
        exact ih found dt has hsame2 hdtc2 hdup
      | some name =>
        by_cases hmem : name ∈ found
        · exact ⟨name, cleanNewLoop_cons_dup r rest found dt has name hd ha hmem⟩
        · rw [cleanNewLoop_cons_fresh r rest found dt has name hd ha hmem]
          apply ih _ dt has hsame2 hdtc2
          rw [auxNames_cons_some r rest name ha] at hdup
          rcases hdup with h | ⟨n, hn, hf⟩
          · by_cases hnm : name ∈ auxNames rest
            · exact Or.inr ⟨name, hnm, List.mem_cons_self name found⟩
            · exact Or.inl (fun hnd => h (List.nodup_cons.mpr ⟨hnm, hnd⟩))
          · rcases List.mem_cons.mp hn with hh | hh
            · rw [hh] at hf
              exact absurd hf hmem
            · exact Or.inr ⟨n, hh, List.mem_cons_of_mem name hf⟩

theorem cleanAddAux_dup (rows : List VdevRow) :
    ∀ found, (¬ (auxNames rows).Nodup ∨ ∃ n ∈ auxNames rows, n ∈ found) →
      ∃ name, cleanAddAux rows found = Except.error (FormError.onlyOneRow name) := by
  induction rows with
  | nil =>
    intro found hdup
    rcases hdup with h | ⟨n, hn, -⟩
    · rw [auxNames_nil] at h
      exact absurd List.nodup_nil h
    · rw [auxNames_nil] at hn
      exact absurd hn (List.not_mem_nil n)
  | cons r rest ih =>
    intro found hdup
    cases ha : auxName? r.vdevtype with
    | none =>
      rw [auxNames_cons_none r rest ha] at hdup
      rw [cleanAddAux_cons_none r rest found ha]
      exact ih found hdup
    | some name =>
      by_cases hmem : name ∈ found
      · exact ⟨name, cleanAddAux_cons_dup r rest found name ha hmem⟩
      · rw [cleanAddAux_cons_fresh r rest found name ha hmem]
        apply ih
        rw [auxNames_cons_some r rest name ha] at hdup
        rcases hdup with h | ⟨n, hn, hf⟩
        · by_cases hnm : name ∈ auxNames rest
          · exact Or.inr ⟨name, hnm, List.mem_cons_self name found⟩
          · exact Or.inl (fun hnd => h (List.nodup_cons.mpr ⟨hnm, hnd⟩))
        · rcases List.mem_cons.mp hn with hh | hh
          · rw [hh] at hf
            exact absurd hf hmem
          · exact Or.inr ⟨n, hh, List.mem_cons_of_mem name hf⟩

/-- Counterexample to claim C5: when creating a volume whose formset is
`[mirror, raidz, log, log]`, the same auxiliary type `log` occurs twice,
yet `VdevFormSet.clean` raises the different-data-vdev-types error for
the earlier mirror/raidz pair, not "Only one row ...". -/
theorem c5_counterexample :
    cleanNew [VdevRow.mk "mirror" ["da0", "da1"],
        VdevRow.mk "raidz" ["da2", "da3", "da4"],
        VdevRow.mk "log" ["da5"], VdevRow.mk "log" ["da6"]] =
      Except.error (FormError.differentDataTypes "mirror" "raidz") ∧
    ¬ (auxNames [VdevRow.mk "mirror" ["da0", "da1"],
        VdevRow.mk "raidz" ["da2", "da3", "da4"],
        VdevRow.mk "log" ["da5"], VdevRow.mk "log" ["da6"]]).Nodup := by
  exact ⟨rfl, by decide⟩

/-- Claim C5 (amended): a formset whose auxiliary vdev types (`cache`,
`log` — with `log mirror` counted as `log` — and `spare`) are not all
distinct never validates: when appending, `VdevFormSet.clean` always
raises "Only one row for the vitual device of type %s is allowed."; when
creating, the formset never validates, and it raises that same error
provided the data rows do not also carry two different data vdev types
(in which case the different-data-vdev-types error may be raised
first). -/
theorem c5_aux_row_limit (rows : List VdevRow) (zdata : List PoolVdev)
    (h : ¬ (auxNames rows).Nodup) :
    (∃ name, cleanAdd zdata rows = Except.error (FormError.onlyOneRow name)) ∧
    cleanNew rows ≠ Except.ok () ∧
    ((∀ r1 ∈ rows, ∀ r2 ∈ rows, isDataType r1.vdevtype = true →
        isDataType r2.vdevtype = true → r1.vdevtype = r2.vdevtype) →
      ∃ name, cleanNew rows = Except.error (FormError.onlyOneRow name)) := by
  refine ⟨?_, ?_, ?_⟩
  · obtain ⟨name, he⟩ := cleanAddAux_dup rows [] (Or.inl h)
    refine ⟨name, ?_⟩
    rw [cleanAdd, he]
  · intro hok
    exact h (cleanNewLoop_ok_nodup rows [] none false hok).1
  · intro hsame
    exact cleanNewLoop_dup_onlyOneRow rows [] none false hsame
      (fun t ht => Option.noConfusion ht) (Or.inl h)

/-- Witness for claim C5: two `log` rows are rejected with
"Only one row ..." both when appending and when creating. -/
theorem c5_witness :
    (∃ name, cleanAdd [] [VdevRow.mk "log" ["da0"], VdevRow.mk "log" ["da1"]] =
      Except.error (FormError.onlyOneRow name)) ∧
    (∃ name, cleanNew [VdevRow.mk "log" ["da0"], VdevRow.mk "log" ["da1"]] =
      Except.error (FormError.onlyOneRow name)) := by
  have h := c5_aux_row_limit [VdevRow.mk "log" ["da0"], VdevRow.mk "log" ["da1"]] []
    (by decide)
  exact ⟨h.1, h.2.2 (by decide)⟩

theorem cleanAddAux_ok (rows : List VdevRow) :
    ∀ found, (auxNames rows).Nodup → (∀ n ∈ auxNames rows, n ∉ found) →
      cleanAddAux rows found = Except.ok () := by
  induction rows with
  | nil => intro found _ _; rfl
  | cons r rest ih =>
    intro found hnd hdisj
    cases ha : auxName? r.vdevtype with
    | none =>
      rw [auxNames_cons_none r rest ha] at hnd hdisj
      rw [cleanAddAux_cons_none r rest found ha]
      exact ih found hnd hdisj
    | some name =>
      rw [auxNames_cons_some r rest name ha] at hnd hdisj
      have hmem : name ∉ found := hdisj name (List.mem_cons_self name _)
      rw [cleanAddAux_cons_fresh r rest found name ha hmem]
      apply ih
      · exact (List.nodup_cons.mp hnd).2
      · intro n hn hf
        rcases List.mem_cons.mp hf with hh | hh
        · rw [hh] at hn
          exact (List.nodup_cons.mp hnd).1 hn
        · exact (hdisj n (List.mem_cons_of_mem name hn)) hh

theorem matchRows_eq (v : PoolVdev) (rows : List VdevRow) :
    matchRows v rows =
      (match (mismatchErrs v rows).head? with
       | some e => Except.error e
       | none => Except.ok ()) := by
  induction rows with
  | nil => rfl
  | cons r rest ih =>
    by_cases h1 : r.vdevtype = ""
    · rw [matchRows_cons_skip v r rest (Or.inl h1),
        mismatchErrs_cons_skip v r rest (Or.inl h1)]
      exact ih
    · cases ha : auxName? r.vdevtype with
      | some name =>
        have hs : (auxName? r.vdevtype).isSome = true := by rw [ha]; rfl
        rw [matchRows_cons_skip v r rest (Or.inr hs),
          mismatchErrs_cons_skip v r rest (Or.inr hs)]
        exact ih
      | none =>
        rw [matchRows_cons_check v r rest h1 ha, mismatchErrs_cons_check v r rest h1 ha]
        cases hm : vdevMismatch v r with
        | some e => rfl
        | none => exact ih

theorem matchAll_eq (zdata : List PoolVdev) (rows : List VdevRow) :
    matchAll zdata rows =
      (match firstMismatch zdata rows with
       | some e => Except.error e
       | none => Except.ok ()) := by
  induction zdata with
  | nil => rfl
  | cons v vs ih =>
    have hstep : matchAll (v :: vs) rows =
        (match matchRows v rows with
         | Except.error e => Except.error e
         | Except.ok _ => matchAll vs rows) := rfl
    rw [hstep, matchRows_eq v rows]
    cases hl : mismatchErrs v rows with
    | nil =>
      have hfm : firstMismatch (v :: vs) rows = firstMismatch vs rows := by
        simp [firstMismatch, hl]
      rw [hfm]
      exact ih
    | cons e es =>
      have hfm : firstMismatch (v :: vs) rows = some e := by
        simp [firstMismatch, hl]
      rw [hfm]
      rfl

theorem vdevMismatch_eq_none_iff (v : PoolVdev) (r : VdevRow) :
    vdevMismatch v r = none ↔
      (v.type = r.vdevtype ∧ r.disks.length = v.devs.length) := by
  unfold vdevMismatch
  split_ifs with h1 h2 <;> simp_all

theorem mismatchErrs_eq_nil_iff (v : PoolVdev) (rows : List VdevRow) :
    mismatchErrs v rows = [] ↔
      ∀ r ∈ rows, r.vdevtype ≠ "" → auxName? r.vdevtype = none →
        vdevMismatch v r = none := by
  rw [mismatchErrs, List.filterMap_eq_nil_iff]
  constructor
  · intro hall r hr hne ha
    have h := hall r hr
    simpa [hne, ha] using h
  · intro hall r hr
    by_cases h1 : r.vdevtype = ""
    · simp [h1]
    · cases ha : auxName? r.vdevtype with
      | some name => simp [h1, ha]
      | none => simpa [h1, ha] using hall r hr h1 ha

theorem firstMismatch_eq_none_iff (zdata : List PoolVdev) (rows : List VdevRow) :
    firstMismatch zdata rows = none ↔ ∀ v ∈ zdata, mismatchErrs v rows = [] := by
  rw [firstMismatch, List.head?_eq_none_iff, List.flatten_eq_nil_iff]
  simp

/-- Claim C4: when appending to an existing volume (and no auxiliary type
is duplicated — a duplicate is claim C5's error and is reported by the
earlier pass), the append branch of `VdevFormSet.clean` returns the first
mismatch found scanning the existing data vdevs and, within each, the
submitted rows, a type mismatch reported in preference to a device-count
mismatch for the same pair; it succeeds exactly when every submitted
non-auxiliary vdev row matches every data vdev of the pool in both type
and device count. -/
theorem c4_append_matching (zdata : List PoolVdev) (rows : List VdevRow)
    (h : (auxNames rows).Nodup) :
    cleanAdd zdata rows =
      (match firstMismatch zdata rows with
       | some e => Except.error e
       | none => Except.ok ()) ∧
    (firstMismatch zdata rows = none ↔
      ∀ v ∈ zdata, ∀ r ∈ rows, r.vdevtype ≠ "" → auxName? r.vdevtype = none →
        (v.type = r.vdevtype ∧ r.disks.length = v.devs.length)) := by
  constructor
  · rw [cleanAdd, cleanAddAux_ok rows [] h (by simp)]
    exact matchAll_eq zdata rows
  · rw [firstMismatch_eq_none_iff zdata rows]
    constructor
    · intro hall v hv r hr hne ha
      exact (vdevMismatch_eq_none_iff v r).mp
        (((mismatchErrs_eq_nil_iff v rows).mp (hall v hv)) r hr hne ha)
    · intro hall v hv
      exact (mismatchErrs_eq_nil_iff v rows).mpr
        (fun r hr hne ha => (vdevMismatch_eq_none_iff v r).mpr (hall v hv r hr hne ha))

/-- Witness for claim C4: against a pool with one two-disk mirror data
vdev, a matching two-disk mirror row is accepted, while a raidz row is
rejected with the type-mismatch error. -/
theorem c4_witness :
    cleanAdd [PoolVdev.mk "mirror" ["ada0", "ada1"]]
      [VdevRow.mk "mirror" ["da0", "da1"]] = Except.ok () ∧
    cleanAdd [PoolVdev.mk "mirror" ["ada0", "ada1"]]
      [VdevRow.mk "raidz" ["da0", "da1", "da2"]] =
      Except.error (FormError.typeMismatch "raidz" "mirror") := by
  have h1 := c4_append_matching [PoolVdev.mk "mirror" ["ada0", "ada1"]]
    [VdevRow.mk "mirror" ["da0", "da1"]] (by decide)
  have h2 := c4_append_matching [PoolVdev.mk "mirror" ["ada0", "ada1"]]
    [VdevRow.mk "raidz" ["da0", "da1", "da2"]] (by decide)
  exact ⟨h1.1.trans rfl, h2.1.trans rfl⟩

theorem applyOp_attach (name : String) (i : Nat) (db : DB) :
    applyOp name (SaveOp.zfsAttachGroup i) db = db := rfl

theorem runOps_attach (name : String) (fails : SaveOp → Bool) (l : List Nat) :
    ∀ db, (runOps name fails (l.map SaveOp.zfsAttachGroup) db).1 = db := by
  induction l with
  | nil => intro db; rfl
  | cons i is ih =>
    intro db
    by_cases hf : fails (SaveOp.zfsAttachGroup i) = true
    · simp [runOps, hf]
    · simp only [Bool.not_eq_true] at hf
      simp [runOps, hf, applyOp_attach]
      exact ih db

theorem runOps_new_shape (name : String) (fails : SaveOp → Bool) (db0 : DB)
    (k : Nat) (dedup : Bool) :
    (runOps name fails (saveOps false k dedup) db0).2 = none ∨
    ((runOps name fails (saveOps false k dedup) db0).1 = db0 ∨
     (runOps name fails (saveOps false k dedup) db0).1 =
       DB.mk (db0.volumes ++ [name]) db0.scrubs) := by
  by_cases hb : dedup = true <;>
    by_cases f1 : fails SaveOp.volSave = true <;>
    by_cases f2 : fails SaveOp.zfsCreateVolume = true <;>
    by_cases f3 : fails SaveOp.zfsSetDedup = true <;>
    by_cases f4 : fails SaveOp.scrubCreate = true <;>
    simp_all [saveOps, runOps, applyOp]

/-- Claim C8: if the `try` block of `VolumeManagerForm.save` raises, then
on the creation path (volume name not yet in the database) the handler
deletes the volume row it created via `volume.delete(destroy=False,
cascade=False)` and no scrub row survives, so the database is exactly as
before the call; on the append path (name already present) the existing
volume row is never deleted and no `volume.delete` call is made. -/
theorem c8_save_rollback (db0 : DB) (name : String) (k : Nat) (dedup : Bool)
    (fails : SaveOp → Bool)
    (h : (volumeManagerSave db0 name k dedup fails).raised = true) :
    (name ∉ db0.volumes →
      (volumeManagerSave db0 name k dedup fails).db = db0 ∧
      (volumeManagerSave db0 name k dedup fails).volDeleteCalls = [(name, false, false)]) ∧
    (name ∈ db0.volumes →
      name ∈ (volumeManagerSave db0 name k dedup fails).db.volumes ∧
      (volumeManagerSave db0 name k dedup fails).volDeleteCalls = []) := by
  by_cases hadd : name ∈ db0.volumes
  · have hdec : decide (name ∈ db0.volumes) = true := decide_eq_true hadd
    refine ⟨fun hn => absurd hadd hn, fun _ => ?_⟩
    simp only [volumeManagerSave, hdec] at h ⊢
    cases hres : (runOps name fails (saveOps true k dedup) db0).2 with
    | none =>
      rw [hres] at h
      exact Bool.noConfusion h
    | some op =>
      have hdb : (runOps name fails (saveOps true k dedup) db0).1 = db0 := by
        have hops : saveOps true k dedup = (List.range k).map SaveOp.zfsAttachGroup := by
          simp [saveOps]
        rw [hops]
        exact runOps_attach name fails (List.range k) db0
      exact ⟨by simp [hadd, hdb], by simp [hadd]⟩
  · have hdec : decide (name ∈ db0.volumes) = false := decide_eq_false hadd
    refine ⟨fun _ => ?_, fun hn => absurd hn hadd⟩
    simp only [volumeManagerSave, hdec] at h ⊢
    cases hres : (runOps name fails (saveOps false k dedup) db0).2 with
    | none =>
      rw [hres] at h
      exact Bool.noConfusion h
    | some op =>
      have hshape := runOps_new_shape name fails db0 k dedup
      rcases hshape with hnone | hdb1 | hdb1
      · rw [hres] at hnone
        exact Option.noConfusion hnone
      · refine ⟨?_, by simp [hadd]⟩
        simp [hadd, hdb1, List.erase_of_not_mem hadd]
      · refine ⟨?_, by simp [hadd]⟩
        have herase : (db0.volumes ++ [name]).erase name = db0.volumes := by
          rw [List.erase_append_right _ hadd, List.erase_cons_head, List.append_nil]
        simp [hadd, hdb1, herase]

/-- Witness for claim C8: with an empty database, a creation whose
`create_volume` call raises leaves the database empty, records the
`delete(destroy=False, cascade=False)` call, and with the volume already
present an attach failure leaves the row in place. -/
theorem c8_witness :
    (volumeManagerSave (DB.mk [] []) "tank" 1 false
        (fun op => op = SaveOp.zfsCreateVolume)).db = DB.mk [] [] ∧
    "tank" ∈ (volumeManagerSave (DB.mk ["tank"] []) "tank" 1 false
        (fun op => op = SaveOp.zfsAttachGroup 0)).db.volumes := by
  have h1 := c8_save_rollback (DB.mk [] []) "tank" 1 false
    (fun op => decide (op = SaveOp.zfsCreateVolume)) (by decide)
  have h2 := c8_save_rollback (DB.mk ["tank"] []) "tank" 1 false
    (fun op => decide (op = SaveOp.zfsAttachGroup 0)) (by decide)
  exact ⟨(h1.1 (by decide)).1, (h2.2 (by decide)).1⟩

theorem intList?_none_iff (l : List String) :
    intList? l = none ↔ ∃ e ∈ l, pyInt? e = none := by
  induction l with
  | nil => simp [intList?]
  | cons s rest ih =>
    constructor
    · intro h
      unfold intList? at h
      cases hp : pyInt? s with
      | none => exact ⟨s, List.mem_cons_self s rest, hp⟩
      | some n =>
        rw [hp] at h
        cases hr : intList? rest with
        | none =>
          obtain ⟨e, he, hpe⟩ := ih.mp hr
          exact ⟨e, List.mem_cons_of_mem s he, hpe⟩
        | some ns =>
          rw [hr] at h
          exact Option.noConfusion h
    · rintro ⟨e, he, hpe⟩
      unfold intList?
      rcases List.mem_cons.mp he with hh | hh
      · rw [hh] at hpe
        rw [hpe]
      · cases hp : pyInt? s with
        | none => rfl
        | some n =>
          have hr : intList? rest = none := ih.mpr ⟨e, hh, hpe⟩
          rw [hr]

theorem intList?_mem_entries (l : List String) :
    ∀ ns, intList? l = some ns →
      (∀ n ∈ ns, ∃ e ∈ l, pyInt? e = some n) ∧
      (∀ e ∈ l, ∀ n, pyInt? e = some n → n ∈ ns) := by
  induction l with
  | nil =>
    intro ns h
    have hns : ([] : List Int) = ns := Option.some.inj h
    subst hns
    exact ⟨fun n hn => absurd hn (List.not_mem_nil n),
      fun e he => absurd he (List.not_mem_nil e)⟩
  | cons s rest ih =>
    intro ns h
    unfold intList? at h
    cases hp : pyInt? s with
    | none =>
      rw [hp] at h
      exact Option.noConfusion h
    | some n =>
      rw [hp] at h
      cases hr : intList? rest with
      | none =>
        rw [hr] at h
        exact Option.noConfusion h
      | some ms =>
        rw [hr] at h
        have hns : (n :: ms : List Int) = ns := Option.some.inj h
        subst hns
        obtain ⟨ih1, ih2⟩ := ih ms hr
        constructor
        · intro m hm
          rcases List.mem_cons.mp hm with hh | hh
          · refine ⟨s, List.mem_cons_self s rest, ?_⟩
            rw [hp, hh]
          · obtain ⟨e, he, hpe⟩ := ih1 m hh
            exact ⟨e, List.mem_cons_of_mem s he, hpe⟩
        · intro e he m hpe
          rcases List.mem_cons.mp he with hh | hh
          · rw [hh, hp] at hpe
            exact List.mem_cons.mpr (Or.inl (Option.some.inj hpe).symm)
          · exact List.mem_cons_of_mem n (ih2 e hh m hpe)

theorem checkField_none (lo hi : Int) (einv erng : CronError) :
    checkField none lo hi einv erng = [] := rfl

theorem checkField_skip (s : String) (lo hi : Int) (einv erng : CronError)
    (h : s = "" ∨ s = "*") : checkField (some s) lo hi einv erng = [] := by
  simp only [checkField, if_pos h]

theorem checkField_invalid (s : String) (lo hi : Int) (einv erng : CronError)
    (h1 : ¬ (s = "" ∨ s = "*")) (h2 : intList? (pySplit s) = none) :
    checkField (some s) lo hi einv erng = [einv] := by
  simp only [checkField, if_neg h1, h2]

theorem checkField_converted (s : String) (lo hi : Int) (einv erng : CronError)
    (ns : List Int) (h1 : ¬ (s = "" ∨ s = "*")) (h2 : intList? (pySplit s) = some ns) :
    checkField (some s) lo hi einv erng =
      (if ns.any (fun n => decide (n < lo) || decide (hi < n)) then [erng] else []) := by
  simp only [checkField, if_neg h1, h2]

theorem checkField_mem_shape (val : Option String) (lo hi : Int) (einv erng : CronError) :
    ∀ x ∈ checkField val lo hi einv erng, x = einv ∨ x = erng := by
  intro x hx
  cases val with
  | none =>
    rw [checkField_none] at hx
    exact absurd hx (List.not_mem_nil x)
  | some s =>
    by_cases hss : s = "" ∨ s = "*"
    · rw [checkField_skip s lo hi einv erng hss] at hx
      exact absurd hx (List.not_mem_nil x)
    · cases hil : intList? (pySplit s) with
      | none =>
        rw [checkField_invalid s lo hi einv erng hss hil] at hx
        exact Or.inl (List.mem_singleton.mp hx)
      | some ns =>
        rw [checkField_converted s lo hi einv erng ns hss hil] at hx
        by_cases hany : ns.any (fun n => decide (n < lo) || decide (hi < n)) = true
        · rw [if_pos hany] at hx
          exact Or.inr (List.mem_singleton.mp hx)
        · rw [if_neg hany] at hx
          exact absurd hx (List.not_mem_nil x)

theorem checkUser_mem_shape (userOk : String → Bool) (u : Option String) :
    ∀ x ∈ checkUser userOk u, x = CronError.userSpaces ∨ x = CronError.userMissing := by
  intro x hx
  cases u with
  | none =>
    simp only [checkUser] at hx
    exact absurd hx (List.not_mem_nil x)
  | some v =>
    simp only [checkUser] at hx
    split_ifs at hx
    · exact absurd hx (List.not_mem_nil x)
    · exact Or.inl (List.mem_singleton.mp hx)
    · exact absurd hx (List.not_mem_nil x)
    · exact Or.inr (List.mem_singleton.mp hx)

theorem checkField_err_iff (val : Option String) (lo hi : Int) (einv erng : CronError) :
    (einv ∈ checkField val lo hi einv erng ∨ erng ∈ checkField val lo hi einv erng) ↔
      ∃ s, val = some s ∧ s ≠ "" ∧ s ≠ "*" ∧
        ((∃ e ∈ pySplit s, pyInt? e = none) ∨
         (∃ e ∈ pySplit s, ∃ n, pyInt? e = some n ∧ (n < lo ∨ hi < n))) := by
  cases val with
  | none => simp [checkField_none]
  | some s =>
    by_cases hss : s = "" ∨ s = "*"
    · constructor
      · intro h
        rw [checkField_skip s lo hi einv erng hss] at h
        rcases h with h | h <;> exact absurd h (List.not_mem_nil _)
      · rintro ⟨s2, hs2, hne1, hne2, -⟩
        have hs2s : s = s2 := Option.some.inj hs2
        subst hs2s
        rcases hss with h | h
        · exact absurd h hne1
        · exact absurd h hne2
    · have hne1 : s ≠ "" := fun h => hss (Or.inl h)
      have hne2 : s ≠ "*" := fun h => hss (Or.inr h)
      cases hil : intList? (pySplit s) with
      | none =>
        rw [checkField_invalid s lo hi einv erng hss hil]
        constructor
        · intro _
          exact ⟨s, rfl, hne1, hne2, Or.inl ((intList?_none_iff _).mp hil)⟩
        · intro _
          exact Or.inl (List.mem_singleton.mpr rfl)
      | some ns =>
        rw [checkField_converted s lo hi einv erng ns hss hil]
        by_cases hany : ns.any (fun n => decide (n < lo) || decide (hi < n)) = true
        · rw [if_pos hany]
          constructor
          · intro _
            refine ⟨s, rfl, hne1, hne2, Or.inr ?_⟩
            obtain ⟨n, hn, hcond⟩ := List.any_eq_true.mp hany
            simp only [Bool.or_eq_true, decide_eq_true_eq] at hcond
            obtain ⟨e, he, hpe⟩ := ((intList?_mem_entries _ ns hil).1) n hn
            exact ⟨e, he, n, hpe, hcond⟩
          · intro _
            exact Or.inr (List.mem_singleton.mpr rfl)
        · rw [if_neg hany]
          constructor
          · intro h
            rcases h with h | h <;> exact absurd h (List.not_mem_nil _)
          · rintro ⟨s2, hs2, -, -, hc⟩
            have hs2s : s = s2 := Option.some.inj hs2
            subst hs2s
            exfalso
            rcases hc with ⟨e, he, hpe⟩ | ⟨e, he, n, hpe, hout⟩
            · have hn : intList? (pySplit s) = none :=
                (intList?_none_iff _).mpr ⟨e, he, hpe⟩
              rw [hil] at hn
              exact Option.noConfusion hn
            · have hnns : n ∈ ns := ((intList?_mem_entries _ ns hil).2) e he n hpe
              apply hany
              refine List.any_eq_true.mpr ⟨n, hnns, ?_⟩
              simp only [Bool.or_eq_true, decide_eq_true_eq]
              exact hout

/-- Claim C10: `validate_data` records a weekday error iff the `dayweek`
value is present, non-empty, not `*`, and some comma entry is not an
integer or some integer entry lies outside 1..7; symmetrically for
`month` with 1..12; absent, empty or `*` values are accepted; and
`do_create` raises the accumulated errors with no datastore insert and no
cron restart, performing both effects only when validation found no
error. -/
theorem c10_cron_validation (userOk : String → Bool) (d : CronData) :
    ((CronError.weekdayInvalid ∈ validateData userOk d ∨
      CronError.weekdayRange ∈ validateData userOk d) ↔
      ∃ s, d.dayweek = some s ∧ s ≠ "" ∧ s ≠ "*" ∧
        ((∃ e ∈ pySplit s, pyInt? e = none) ∨
         (∃ e ∈ pySplit s, ∃ n, pyInt? e = some n ∧ (n < 1 ∨ 7 < n)))) ∧
    ((CronError.monthInvalid ∈ validateData userOk d ∨
      CronError.monthRange ∈ validateData userOk d) ↔
      ∃ s, d.month = some s ∧ s ≠ "" ∧ s ≠ "*" ∧
        ((∃ e ∈ pySplit s, pyInt? e = none) ∨
         (∃ e ∈ pySplit s, ∃ n, pyInt? e = some n ∧ (n < 1 ∨ 12 < n)))) ∧
    (validateData userOk d = [] →
      doCreate userOk d =
        Except.ok (d, [CronEffect.datastoreInsert, CronEffect.restartCron])) ∧
    (validateData userOk d ≠ [] →
      doCreate userOk d = Except.error (validateData userOk d)) := by
  have hloc : ∀ x : CronError,
      (x = CronError.weekdayInvalid ∨ x = CronError.weekdayRange) →
      (x ∈ validateData userOk d ↔
        x ∈ checkField d.dayweek 1 7 CronError.weekdayInvalid CronError.weekdayRange) := by
    intro x hx
    simp only [validateData, List.mem_append]
    constructor
    · rintro ((h | h) | h)
      · exact h
      · exfalso
        rcases checkField_mem_shape _ _ _ _ _ x h with h2 | h2 <;>
          rcases hx with h3 | h3 <;> rw [h3] at h2 <;> exact absurd h2 (by decide)
      · exfalso
        rcases checkUser_mem_shape _ _ x h with h2 | h2 <;>
          rcases hx with h3 | h3 <;> rw [h3] at h2 <;> exact absurd h2 (by decide)
    · intro h
      exact Or.inl (Or.inl h)
  have hloc2 : ∀ x : CronError,
      (x = CronError.monthInvalid ∨ x = CronError.monthRange) →
      (x ∈ validateData userOk d ↔
        x ∈ checkField d.month 1 12 CronError.monthInvalid CronError.monthRange) := by
    intro x hx
    simp only [validateData, List.mem_append]
    constructor
    · rintro ((h | h) | h)
      · exfalso
        rcases checkField_mem_shape _ _ _ _ _ x h with h2 | h2 <;>
          rcases hx with h3 | h3 <;> rw [h3] at h2 <;> exact absurd h2 (by decide)
      · exact h
      · exfalso
        rcases checkUser_mem_shape _ _ x h with h2 | h2 <;>
          rcases hx with h3 | h3 <;> rw [h3] at h2 <;> exact absurd h2 (by decide)
    · intro h
      exact Or.inl (Or.inr h)
  refine ⟨?_, ?_, ?_, ?_⟩
  · rw [hloc CronError.weekdayInvalid (Or.inl rfl), hloc CronError.weekdayRange (Or.inr rfl)]
    exact checkField_err_iff d.dayweek 1 7 CronError.weekdayInvalid CronError.weekdayRange
  · rw [hloc2 CronError.monthInvalid (Or.inl rfl), hloc2 CronError.monthRange (Or.inr rfl)]
    exact checkField_err_iff d.month 1 12 CronError.monthInvalid CronError.monthRange
  · intro hnil
    simp [doCreate, hnil]
  · intro hne
    simp [doCreate, hne]

/-- Witness for claim C10: a weekday entry `8` is out of range, the
creation raises the accumulated errors and performs no effect; the same
payload with dayweek `1,7` is accepted and performs the insert and the
cron restart. -/
theorem c10_witness :
    doCreate (fun _ => true) (CronData.mk (some "1,8") none none) =
      Except.error [CronError.weekdayRange] ∧
    doCreate (fun _ => true) (CronData.mk (some "1,7") none none) =
      Except.ok (CronData.mk (some "1,7") none none,
        [CronEffect.datastoreInsert, CronEffect.restartCron]) := by
  have h1 := c10_cron_validation (fun _ => true) (CronData.mk (some "1,8") none none)
  have h2 := c10_cron_validation (fun _ => true) (CronData.mk (some "1,7") none none)
  constructor
  · have he := h1.2.2.2 (by decide)
    rw [he]
    rfl
  · exact h2.2.2.1 (by decide)

end Freenas
